import Mathlib

/-!
Verification development for the EntityBuilder.TS serialization core.

We shallowly embed the parts of the source that the checked properties
concern: the `DirectReferenceHandler` (src/reference-handlers/
direct-reference-handler.ts), the `SerializerContext` propagation
protocol (serializer-context.ts: effective-option getters,
`defineGenericSerializerContext`, `definePolymorphicSerializerContext`,
reference/callback plumbing), the `SetSerializer`
(src/serializers/set-serializer.ts) and `isCtorFunction`
(src/functions/is-ctor-function.ts).

Modelling conventions:
- JavaScript's mutable `WeakMap` reference map and callback map are
  threaded explicitly as a state value; identity of JS objects is
  modelled by structural equality on the embedded value type (each
  distinct object of interest is a distinct embedded value).
- `undefined`/`null` are explicit value constructors; lodash `isNil`
  holds exactly for those two.
- Exceptions (`throw new Error`) are modelled with `Except String`.
- Reference callbacks are opaque effects: running one is recorded, in
  order, in an event list of the state.
-/

namespace EB

/-! ## Part 1: DirectReferenceHandler, generically

`ReferenceKey` is a JS object; we model object identity by a `Nat` id.
`ReferenceValue` is an arbitrary JS value: either nil
(`undefined`/`null`, modelled `none`) or a non-nil value with identity
`some n`.  A key `k`, viewed as a value, is `some k`. -/

/-- A reference value: `none` models a nil JS value (`undefined` or
`null`), `some n` a non-nil value with object identity `n`. -/
abbrev RVal := Option Nat

/-- The shared reference map: association list, most recent entry first
(so `set` is modelled by prepending). -/
abbrev RefMap := List (Nat × RVal)

/-- `WeakMap.get`: an absent key yields `undefined` (i.e. nil, `none`);
a present key yields the stored value. -/
def mapGet (m : RefMap) (k : Nat) : RVal :=
  match m.lookup k with
  | none => none
  | some v => v

/-- `WeakMap.set`: prepend, shadowing any older entry for the key. -/
def mapSet (m : RefMap) (k : Nat) (v : RVal) : RefMap :=
  (k, v) :: m

/-- State visible to the reference handler: the shared reference map,
the reference-callback map (callbacks modelled as opaque updates that
may read the current reference map and act on an external environment
`σ`, exactly as the closures registered by `registerReferenceCallback`
read `referenceMap.get(referenceKey)` and write an external slot), and
the external environment itself. -/
structure HState (σ : Type) where
  referenceMap : RefMap
  referenceCallbackMap : List (Nat × List (RefMap → σ → σ))
  env : σ

/-- Overwrite the reference map of a state. -/
def HState.withMap (s : HState σ) (m : RefMap) : HState σ :=
  { s with referenceMap := m }

/-- `SerializerContext.resolveReferenceCallbacks`: look up the callback
list for the key and run every callback, in order.  Source:
serializer-context.ts `resolveReferenceCallbacks`. -/
def resolveReferenceCallbacks (s : HState σ) (referenceKey : Nat) : HState σ :=
  match s.referenceCallbackMap.lookup referenceKey with
  | none => s
  | some referenceCallbacks =>
      { s with env := referenceCallbacks.foldl (fun e cb => cb s.referenceMap e) s.env }

/-- Result of `define`/`restore`: a resolved reference value, or a
reference-value resolver (a deferred accessor closed over the key)
when a circular dependency is detected. -/
inductive DefineResult where
  | value (v : RVal)
  | resolver (referenceKey : Nat)
deriving DecidableEq

/-- Invoking a reference-value resolver later: the closure
`() => referenceMap.get(referenceKey)` reads the map current at
invocation time. -/
def invokeResolver (m : RefMap) (referenceKey : Nat) : RVal :=
  mapGet m referenceKey

namespace DirectReferenceHandler

/-- `DirectReferenceHandler.define` (direct-reference-handler.ts,
lines 26-50).  The value initializer is an arbitrary state-transforming
closure (it recursively re-enters serialization).  Transcription:

    const referenceValue = referenceMap.get(referenceKey);
    if (isNil(referenceValue)) {
      referenceMap.set(referenceKey, referenceKey);
      const value = referenceValueInitializer();
      referenceMap.set(referenceKey, value);
      serializerContext.resolveReferenceCallbacks(referenceKey);
      return value;
    }
    if (referenceValue === referenceKey) {
      return () => referenceMap.get(referenceKey);
    }
    return referenceValue;
-/
def define (s : HState σ) (referenceKey : Nat)
    (referenceValueInitializer : HState σ → RVal × HState σ) :
    DefineResult × HState σ :=
  match mapGet s.referenceMap referenceKey with
  | none =>
      let s1 := s.withMap (mapSet s.referenceMap referenceKey (some referenceKey))
      let p := referenceValueInitializer s1
      let s3 := p.2.withMap (mapSet p.2.referenceMap referenceKey p.1)
      (DefineResult.value p.1, resolveReferenceCallbacks s3 referenceKey)
  | some v =>
      if v = referenceKey then
        (DefineResult.resolver referenceKey, s)
      else
        (DefineResult.value (some v), s)

/-- `DirectReferenceHandler.restore` (direct-reference-handler.ts,
lines 61-85).  The source body is textually identical to `define`. -/
def restore (s : HState σ) (referenceKey : Nat)
    (referenceValueInitializer : HState σ → RVal × HState σ) :
    DefineResult × HState σ :=
  match mapGet s.referenceMap referenceKey with
  | none =>
      let s1 := s.withMap (mapSet s.referenceMap referenceKey (some referenceKey))
      let p := referenceValueInitializer s1
      let s3 := p.2.withMap (mapSet p.2.referenceMap referenceKey p.1)
      (DefineResult.value p.1, resolveReferenceCallbacks s3 referenceKey)
  | some v =>
      if v = referenceKey then
        (DefineResult.resolver referenceKey, s)
      else
        (DefineResult.value (some v), s)

end DirectReferenceHandler

/-- A counting initializer used to observe invocations: increments a
`Nat` environment and yields a fixed value. -/
def countingInit (v : RVal) : HState Nat → RVal × HState Nat :=
  fun s => (v, { s with env := s.env + 1 })

/-! ## Part 2: the serializer-context protocol and the set serializer

A JSON-shaped JavaScript value.  `arr` is a JS array, `set` a JS `Set`
in iteration (insertion) order, `resolverF` a reference-value-resolver
closure over its reference key (the function value returned by the
reference handler on a circular visit).  Object identity is modelled by
structural equality: distinct objects of interest are represented by
distinct values. -/
inductive Jv where
  | undefined
  | null
  | boolean (b : Bool)
  | num (n : Int)
  | str (s : String)
  | arr (xs : List Jv)
  | set (xs : List Jv)
  | resolverF (k : Jv)

mutual

/-- Boolean equality on values (JS `===` under the structural-identity
convention above). -/
def Jv.beq : Jv → Jv → Bool
  | .undefined, .undefined => true
  | .null, .null => true
  | .boolean a, .boolean b => a == b
  | .num a, .num b => a == b
  | .str a, .str b => a == b
  | .arr a, .arr b => Jv.beqList a b
  | .set a, .set b => Jv.beqList a b
  | .resolverF a, .resolverF b => Jv.beq a b
  | _, _ => false

/-- Elementwise boolean equality on value lists. -/
def Jv.beqList : List Jv → List Jv → Bool
  | [], [] => true
  | a :: as, b :: bs => Jv.beq a b && Jv.beqList as bs
  | _, _ => false

end

/-- `Jv.beq` decides equality, giving decidable equality for values
(the derive handler does not support the nested occurrence of
`List Jv`). -/
instance : DecidableEq Jv := fun x y =>
  decidable_of_iff (Jv.beq x y = true) (by
  have H : ∀ n, (∀ a b : Jv, sizeOf a ≤ n → (Jv.beq a b = true ↔ a = b)) ∧
      (∀ l m : List Jv, sizeOf l ≤ n → (Jv.beqList l m = true ↔ l = m)) := by
    intro n
    induction n with
    | zero =>
        constructor
        · intro a b h; cases a <;> simp at h
        · intro l m h
          cases l with
          | nil => cases m <;> simp [Jv.beqList]
          | cons x xs => exact absurd h (by simp)
    | succ n ih =>
        constructor
        · intro a b h
          cases a <;> cases b <;> simp_all [Jv.beq] <;>
            first
              | exact ih.2 _ _ (by omega)
              | exact ih.1 _ _ (by omega)
        · intro l m h
          cases l with
          | nil => cases m <;> simp [Jv.beqList]
          | cons x xs =>
              cases m with
              | nil => simp [Jv.beqList]
              | cons y ys =>
                  simp only [Jv.beqList, Bool.and_eq_true, List.cons.injEq]
                  simp only [List.cons.sizeOf_spec] at h
                  constructor
                  · rintro ⟨h1, h2⟩
                    exact ⟨(ih.1 x y (by omega)).mp h1, (ih.2 xs ys (by omega)).mp h2⟩
                  · rintro ⟨h1, h2⟩
                    exact ⟨(ih.1 x y (by omega)).mpr h1, (ih.2 xs ys (by omega)).mpr h2⟩
  exact (H (sizeOf x)).1 x y le_rfl)

/-- lodash `isNil`: true exactly for `undefined` and `null`. -/
def Jv.isNil : Jv → Bool
  | .undefined => true
  | .null => true
  | _ => false

/-- A type function (class constructor reference): object identity plus
its `name` property. -/
structure TypeFn where
  id : Nat
  name : String
deriving DecidableEq

/-- A generic argument: either a plain type function, or an array pair
of a type function and nested generic arguments (the `isArray` shape in
the source). -/
inductive GenericArgument where
  | typeFn (t : TypeFn)
  | pair (t : TypeFn) (args : List GenericArgument)

/-- `isArray(genericArgument) ? genericArgument[0] : genericArgument`. -/
def GenericArgument.typeArgumentOf : GenericArgument → TypeFn
  | .typeFn t => t
  | .pair t _ => t

/-- `isArray(genericArgument) ? genericArgument[1] : undefined`. -/
def GenericArgument.nestedArgumentsOf : GenericArgument → Option (List GenericArgument)
  | .typeFn _ => none
  | .pair _ args => some args

/-- Modelled from the spec: the family of shape-specific serializers
(spec section 4.4).  Of the family, only the set serializer's code is
under src/; the leaf primitive converters (string/number/boolean/
date/time) are external collaborators declared out of core scope
(spec section 1), represented at their interface boundary by their two
conversion functions. -/
inductive Serializer where
  | leafS (ser : Jv → Jv) (deser : Jv → Jv)
  | setS

/-- Log handle: only the error-level enablement matters here. -/
structure Log where
  errorEnabled : Bool

/-- Compiled type metadata, restricted to the fields the verified code
reads.  Default values, flags, generic arguments, discriminator name,
discriminant map, serializer and log mirror the getters used by
serializer-context.ts. -/
structure TypeMetadata where
  serializedDefaultValue : Jv
  deserializedDefaultValue : Jv
  preserveNull : Bool
  useDefaultValue : Bool
  genericArguments : Option (List GenericArgument)
  serializer : Serializer
  discriminator : String
  discriminantMap : List (TypeFn × String)
  log : Log

/-- Compiled property metadata: per-field overrides, each possibly
undefined (hence `Option`; the default-value fields are plain values
whose nil states feed the nullish-coalescing chains). -/
structure PropertyMetadata where
  serializedDefaultValue : Jv
  deserializedDefaultValue : Jv
  preserveNull : Option Bool
  useDefaultValue : Option Bool
  genericArguments : Option (List GenericArgument)
  serializer : Option Serializer

/-- A json-path key: a field name or an index (`isNumber` decides the
rendering in `jsonPath`). -/
inductive JsonPathKey where
  | str (s : String)
  | num (n : Nat)

/-- Serializer context options (serializer-context-options.ts): the
immutable description of one traversal node.  The reference-value
setter is an external closure; only its presence is observable to the
verified code paths. -/
structure SerializerContextOptions where
  jsonPathKey : JsonPathKey
  typeMetadata : TypeMetadata
  propertyMetadata : Option PropertyMetadata
  genericArguments : Option (List GenericArgument)
  referenceValueSetterPresent : Bool

/-- A serializer context (serializer-context.ts).  The shared reference
and callback maps are threaded separately as `SerializerState` (they
are mutable `WeakMap`s in the source); the type-metadata resolver is
the registry handle reachable from every metadata (`Metadata`` base
class), carried here directly. -/
inductive SerializerContext where
  | mk (root : Jv)
       (serializerContextOptions : SerializerContextOptions)
       (typeMetadataResolver : TypeFn → TypeMetadata)
       (parentSerializerContext : Option SerializerContext)

/-- The context root `$`. -/
def SerializerContext.root : SerializerContext → Jv
  | .mk r _ _ _ => r

/-- The context options. -/
def SerializerContext.serializerContextOptions : SerializerContext → SerializerContextOptions
  | .mk _ o _ _ => o

/-- The registry resolver (`defineTypeMetadata` target). -/
def SerializerContext.typeMetadataResolver : SerializerContext → (TypeFn → TypeMetadata)
  | .mk _ _ res _ => res

/-- The parent context, when any serializer defined a child context. -/
def SerializerContext.parentSerializerContext : SerializerContext → Option SerializerContext
  | .mk _ _ _ p => p

/-- Getter `typeMetadata`. -/
def SerializerContext.typeMetadata (ctx : SerializerContext) : TypeMetadata :=
  ctx.serializerContextOptions.typeMetadata

/-- Getter `propertyMetadata`. -/
def SerializerContext.propertyMetadata (ctx : SerializerContext) : Option PropertyMetadata :=
  ctx.serializerContextOptions.propertyMetadata

/-- Getter `jsonPathKey`. -/
def SerializerContext.jsonPathKey (ctx : SerializerContext) : JsonPathKey :=
  ctx.serializerContextOptions.jsonPathKey

/-- `defineTypeMetadata`: resolve a type function through the
registry. -/
def SerializerContext.defineTypeMetadata (ctx : SerializerContext) (typeFn : TypeFn) :
    TypeMetadata :=
  ctx.typeMetadataResolver typeFn

/-- Getter `preserveNull`:
`this.propertyMetadata?.preserveNull ?? this.typeMetadata.preserveNull`. -/
def SerializerContext.preserveNull (ctx : SerializerContext) : Bool :=
  ((ctx.propertyMetadata.bind PropertyMetadata.preserveNull).getD
    ctx.typeMetadata.preserveNull)

/-- Getter `useDefaultValue`:
`this.propertyMetadata?.useDefaultValue ?? this.typeMetadata.useDefaultValue`. -/
def SerializerContext.useDefaultValue (ctx : SerializerContext) : Bool :=
  ((ctx.propertyMetadata.bind PropertyMetadata.useDefaultValue).getD
    ctx.typeMetadata.useDefaultValue)

/-- Getter `serializer`:
`this.propertyMetadata?.serializer ?? this.typeMetadata.serializer`. -/
def SerializerContext.serializer (ctx : SerializerContext) : Serializer :=
  ((ctx.propertyMetadata.bind PropertyMetadata.serializer).getD
    ctx.typeMetadata.serializer)

/-- Getter `log` (lives on the type metadata). -/
def SerializerContext.log (ctx : SerializerContext) : Log :=
  ctx.typeMetadata.log

/-- Getter `discriminator` (lives on the type metadata). -/
def SerializerContext.discriminator (ctx : SerializerContext) : String :=
  ctx.typeMetadata.discriminator

/-- Getter `discriminantMap` (lives on the type metadata). -/
def SerializerContext.discriminantMap (ctx : SerializerContext) : List (TypeFn × String) :=
  ctx.typeMetadata.discriminantMap

/-- JS nullish coalescing `a ?? b` on embedded values. -/
def jvNullish (a b : Jv) : Jv :=
  if a.isNil then b else a

/-- Getter `serializedDefaultValue`: when `useDefaultValue` holds,
`this.propertyMetadata?.serializedDefaultValue ?? this.typeMetadata.serializedDefaultValue`,
else `undefined`. -/
def SerializerContext.serializedDefaultValue (ctx : SerializerContext) : Jv :=
  if ctx.useDefaultValue then
    jvNullish
      (match ctx.propertyMetadata with
       | some pm => pm.serializedDefaultValue
       | none => Jv.undefined)
      ctx.typeMetadata.serializedDefaultValue
  else
    Jv.undefined

/-- Getter `serializedNullValue`: `null` when nulls are preserved, else
the serialized default value. -/
def SerializerContext.serializedNullValue (ctx : SerializerContext) : Jv :=
  if ctx.preserveNull then Jv.null else ctx.serializedDefaultValue

/-- Getter `deserializedDefaultValue`. -/
def SerializerContext.deserializedDefaultValue (ctx : SerializerContext) : Jv :=
  if ctx.useDefaultValue then
    jvNullish
      (match ctx.propertyMetadata with
       | some pm => pm.deserializedDefaultValue
       | none => Jv.undefined)
      ctx.typeMetadata.deserializedDefaultValue
  else
    Jv.undefined

/-- Getter `deserializedNullValue`. -/
def SerializerContext.deserializedNullValue (ctx : SerializerContext) : Jv :=
  if ctx.preserveNull then Jv.null else ctx.deserializedDefaultValue

/-- Getter `genericArguments`:
`options.genericArguments ?? propertyMetadata?.genericArguments ?? typeMetadata.genericArguments`. -/
def SerializerContext.genericArguments (ctx : SerializerContext) :
    Option (List GenericArgument) :=
  match ctx.serializerContextOptions.genericArguments with
  | some gas => some gas
  | none =>
      match ctx.propertyMetadata.bind PropertyMetadata.genericArguments with
      | some gas => some gas
      | none => ctx.typeMetadata.genericArguments

/-- Getter `jsonPath`: walk the parent chain, rendering numeric keys as
index access and string keys as quoted field access. -/
def SerializerContext.jsonPath : SerializerContext → String
  | .mk _ o _ none =>
      match o.jsonPathKey with
      | .str s => s
      | .num n => toString n
  | .mk _ o _ (some p) =>
      match o.jsonPathKey with
      | .num n => p.jsonPath ++ "[" ++ toString n ++ "]"
      | .str s => p.jsonPath ++ "[\x27" ++ s ++ "\x27]"

/-- `defineChildSerializerContext`: same root, maps and resolver; the
current context becomes the parent. -/
def SerializerContext.defineChildSerializerContext (ctx : SerializerContext)
    (serializerContextOptions : SerializerContextOptions) : SerializerContext :=
  .mk ctx.root serializerContextOptions ctx.typeMetadataResolver (some ctx)

/-- `defineGenericSerializerContext(genericIndex)`: resolve generic
argument `genericIndex` into a context for it; a missing generic-
argument list or index is a configuration error (a thrown `Error`,
modelled by `Except.error`).  The options are a copy of the current
ones with the resolved type metadata, the argument's nested generic
arguments, and no property metadata; the parent is the current
context's parent. -/
def SerializerContext.defineGenericSerializerContext (ctx : SerializerContext)
    (genericIndex : Nat) : Except String SerializerContext :=
  match ctx.genericArguments with
  | none =>
      .error (ctx.jsonPath ++
        ": cannot define generic arguments. This is usually caused by invalid configuration.")
  | some genericArguments =>
      match genericArguments.get? genericIndex with
      | none =>
          .error (ctx.jsonPath ++ ": cannot define generic argument for index " ++
            toString genericIndex ++ ". This is usually caused by invalid configuration.")
      | some genericArgument =>
          let typeMetadata := ctx.defineTypeMetadata genericArgument.typeArgumentOf
          .ok (.mk ctx.root
            { ctx.serializerContextOptions with
                typeMetadata := typeMetadata,
                genericArguments := genericArgument.nestedArgumentsOf,
                propertyMetadata := none }
            ctx.typeMetadataResolver ctx.parentSerializerContext)

/-- A value in a wire record read during polymorphic discriminant
matching: a string, `undefined` (absent field), or some non-string
value (which can never `===` a string discriminant). -/
inductive RecordValue where
  | str (s : String)
  | undefined
  | other (id : Nat)
deriving DecidableEq

/-- The argument of `definePolymorphicSerializerContext`: a type
function (class reference) or a raw record. -/
inductive TypeFnOrRecord where
  | fn (f : TypeFn)
  | record (fields : List (String × RecordValue))

/-- `isCtorFunction` (src/functions/is-ctor-function.ts):
`isFunction(x) && x.name !== ''`. -/
def isCtorFunction : TypeFnOrRecord → Bool
  | .fn f => f.name != ""
  | .record _ => false

/-- JS property read `x[k]` as used by the discriminant scan.  On a
record it is association lookup with `undefined` for absent keys; on a
function value the only own string-valued property relevant to a
discriminator comparison is `name`. -/
def recordGet : TypeFnOrRecord → String → RecordValue
  | .record fields, k =>
      match fields.lookup k with
      | some v => v
      | none => .undefined
  | .fn f, k => if k = "name" then .str f.name else .undefined

/-- JS strict equality of a record value against a (string)
discriminant. -/
def strictEqStr (v : RecordValue) (d : String) : Bool :=
  match v with
  | .str s => s == d
  | _ => false

/-- `definePolymorphicSerializerContextByTypeFn`: look the type
function up in the discriminant map; a missing discriminant is a
configuration error, otherwise the context is re-typed with the
member's resolved metadata (parent preserved). -/
def SerializerContext.definePolymorphicSerializerContextByTypeFn (ctx : SerializerContext)
    (typeFn : TypeFn) : Except String SerializerContext :=
  match ctx.discriminantMap.lookup typeFn with
  | none =>
      .error (ctx.jsonPath ++
        ": cannot define discriminant of polymorphic type. This is usually caused by invalid configuration.")
  | some _ =>
      let typeMetadata := ctx.defineTypeMetadata typeFn
      .ok (.mk ctx.root
        { ctx.serializerContextOptions with typeMetadata := typeMetadata }
        ctx.typeMetadataResolver ctx.parentSerializerContext)

/-- The `for (const [typeCtor, discriminant] of this.discriminantMap)`
loop of `definePolymorphicSerializerContextByDiscriminant`: first
member whose configured discriminator field in the record equals its
discriminant wins; exhaustion is a configuration error. -/
def SerializerContext.definePolymorphicScan (ctx : SerializerContext) (x : TypeFnOrRecord) :
    List (TypeFn × String) → Except String SerializerContext
  | [] =>
      .error (ctx.jsonPath ++
        ": cannot define discriminant of polymorphic type. This is usually caused by invalid configuration.")
  | (typeCtor, discriminant) :: rest =>
      let typeMetadata := ctx.defineTypeMetadata typeCtor
      if strictEqStr (recordGet x typeMetadata.discriminator) discriminant then
        .ok (.mk ctx.root
          { ctx.serializerContextOptions with typeMetadata := typeMetadata }
          ctx.typeMetadataResolver ctx.parentSerializerContext)
      else
        ctx.definePolymorphicScan x rest

/-- `definePolymorphicSerializerContextByDiscriminant`: scan the
discriminant map in order. -/
def SerializerContext.definePolymorphicSerializerContextByDiscriminant
    (ctx : SerializerContext) (x : TypeFnOrRecord) : Except String SerializerContext :=
  ctx.definePolymorphicScan x ctx.discriminantMap

/-- `definePolymorphicSerializerContext(x)`:
`isCtorFunction(x) ? byTypeFn(x) : byDiscriminant(x)`.  (When
`isCtorFunction` holds, `x` is necessarily a function value; the record
arm under that test is vacuous and kept only for totality.) -/
def SerializerContext.definePolymorphicSerializerContext (ctx : SerializerContext)
    (x : TypeFnOrRecord) : Except String SerializerContext :=
  if isCtorFunction x then
    match x with
    | .fn f => ctx.definePolymorphicSerializerContextByTypeFn f
    | .record r => ctx.definePolymorphicSerializerContextByDiscriminant (.record r)
  else
    ctx.definePolymorphicSerializerContextByDiscriminant x

/-! ### Operation state and the reference handler at serializer values

The per-operation mutable state: the shared reference map (a `WeakMap`
from reference key to reference value, keyed here by embedded values),
the reference-callback map (callbacks are external closures, modelled
as opaque tokens), the log lines written so far, and the ordered record
of callbacks that have been run. -/
structure SerializerState where
  referenceMap : List (Jv × Jv)
  referenceCallbackMap : List (Jv × List Nat)
  logLines : List String
  callbacksRun : List Nat

/-- The empty state a fresh top-level operation starts from. -/
def freshSerializerState : SerializerState :=
  ⟨[], [], [], []⟩

/-- `WeakMap.get` on the reference map: an absent key reads as
`undefined`. -/
def SerializerState.referenceMapGet (st : SerializerState) (referenceKey : Jv) : Jv :=
  match st.referenceMap.lookup referenceKey with
  | none => Jv.undefined
  | some v => v

/-- `SerializerContext.resolveReferenceCallbacks`: run every callback
queued for the key, in order (running an opaque callback is recorded in
`callbacksRun`). -/
def resolveReferenceCallbacksJv (st : SerializerState) (referenceKey : Jv) :
    SerializerState :=
  match st.referenceCallbackMap.lookup referenceKey with
  | none => st
  | some referenceCallbacks =>
      { st with callbacksRun := st.callbacksRun ++ referenceCallbacks }

/-- Append a log line when error logging is enabled, as
`if (serializerContext.log.errorEnabled) serializerContext.log.error(...)`
does. -/
def logErrorWhenEnabled (ctx : SerializerContext) (line : String) (st : SerializerState) :
    SerializerState :=
  if ctx.log.errorEnabled then { st with logLines := st.logLines ++ [line] } else st

/-- `SerializerContext.defineReference`: delegates to the reference
handler's `define`; the handler in the sources is
`DirectReferenceHandler`, whose `define` body is transcribed here at
the serializer value type (the value initializer may itself throw a
configuration error, hence `Except`).  A circular visit returns the
resolver closure `() => referenceMap.get(referenceKey)`, embedded as
the `Jv.resolverF` value. -/
def SerializerContext.defineReference (_serializerContext : SerializerContext)
    (st : SerializerState) (referenceKey : Jv)
    (referenceValueInitializer : SerializerState → Except String (Jv × SerializerState)) :
    Except String (Jv × SerializerState) :=
  let referenceValue := st.referenceMapGet referenceKey
  if referenceValue.isNil then
    let st1 := { st with referenceMap := (referenceKey, referenceKey) :: st.referenceMap }
    match referenceValueInitializer st1 with
    | .error e => .error e
    | .ok (value, st2) =>
        let st3 := { st2 with referenceMap := (referenceKey, value) :: st2.referenceMap }
        .ok (value, resolveReferenceCallbacksJv st3 referenceKey)
  else if referenceValue = referenceKey then
    .ok (Jv.resolverF referenceKey, st)
  else
    .ok (referenceValue, st)

/-- `SerializerContext.restoreReference`: delegates to the reference
handler's `restore`, whose source body is identical to `define`. -/
def SerializerContext.restoreReference (_serializerContext : SerializerContext)
    (st : SerializerState) (referenceKey : Jv)
    (referenceValueInitializer : SerializerState → Except String (Jv × SerializerState)) :
    Except String (Jv × SerializerState) :=
  let referenceValue := st.referenceMapGet referenceKey
  if referenceValue.isNil then
    let st1 := { st with referenceMap := (referenceKey, referenceKey) :: st.referenceMap }
    match referenceValueInitializer st1 with
    | .error e => .error e
    | .ok (value, st2) =>
        let st3 := { st2 with referenceMap := (referenceKey, value) :: st2.referenceMap }
        .ok (value, resolveReferenceCallbacksJv st3 referenceKey)
  else if referenceValue = referenceKey then
    .ok (Jv.resolverF referenceKey, st)
  else
    .ok (referenceValue, st)

/-- `new Set()` + `Set.prototype.add` in iteration order: adding an
already-present value is a no-op. -/
def jsSetAdd (s : List Jv) (v : Jv) : List Jv :=
  if v ∈ s then s else s ++ [v]

mutual

/-- `SerializerContext.serialize(x)`:
`this.serializer.serialize(x, this)` — dispatch on the effective
serializer.  Leaf serializers are at the interface boundary; the set
serializer is the one under verification. -/
def SerializerContext.serialize (ctx : SerializerContext) (x : Jv) (st : SerializerState) :
    Except String (Jv × SerializerState) :=
  match ctx.serializer with
  | .leafS ser _ => .ok (ser x, st)
  | .setS => SetSerializer.serialize x ctx st

/-- `SetSerializer.serialize` (set-serializer.ts lines 25-70):
absent input yields the serialized default value; null input the
serialized null value; a set is serialized under `defineReference` of
the whole set, each element through a generic-argument child context
keyed by index; anything else is a shape mismatch, logged when error
logging is enabled and resolved to `undefined`. -/
def SetSerializer.serialize (x : Jv) (serializerContext : SerializerContext)
    (st : SerializerState) : Except String (Jv × SerializerState) :=
  match x with
  | .undefined => .ok (serializerContext.serializedDefaultValue, st)
  | .null => .ok (serializerContext.serializedNullValue, st)
  | .set s =>
      serializerContext.defineReference st (.set s) (fun st0 =>
        match serializerContext.defineGenericSerializerContext 0 with
        | .error e => .error e
        | .ok genericSerializerContext =>
            match SetSerializer.serializeElements genericSerializerContext s 0 st0 with
            | .error e => .error e
            | .ok (array, st1) => .ok (Jv.arr array, st1))
  | _ =>
      .ok (Jv.undefined,
        logErrorWhenEnabled serializerContext
          (serializerContext.jsonPath ++ ": cannot serialize value as set.") st)

/-- The `for (const v of set)` loop of `SetSerializer.serialize`: each
element is serialized through a child context of the generic context,
keyed by its index, carrying a reference-value setter for the slot. -/
def SetSerializer.serializeElements (genericSerializerContext : SerializerContext) :
    List Jv → Nat → SerializerState → Except String (List Jv × SerializerState)
  | [], _, st => .ok ([], st)
  | v :: rest, i, st =>
      let valueSerializerContext := genericSerializerContext.defineChildSerializerContext
        { jsonPathKey := .num i,
          typeMetadata := genericSerializerContext.typeMetadata,
          propertyMetadata := none,
          genericArguments := none,
          referenceValueSetterPresent := true }
      match valueSerializerContext.serialize v st with
      | .error e => .error e
      | .ok (w, st1) =>
          match SetSerializer.serializeElements genericSerializerContext rest (i + 1) st1 with
          | .error e => .error e
          | .ok (ws, st2) => .ok (w :: ws, st2)

end

mutual

/-- `SerializerContext.deserialize(x)`:
`this.serializer.deserialize(x, this)`. -/
def SerializerContext.deserialize (ctx : SerializerContext) (x : Jv) (st : SerializerState) :
    Except String (Jv × SerializerState) :=
  match ctx.serializer with
  | .leafS _ deser => .ok (deser x, st)
  | .setS => SetSerializer.deserialize x ctx st

/-- `SetSerializer.deserialize` (set-serializer.ts lines 80-121):
absent input yields the deserialized default value; null input the
deserialized null value; an array (sequence) is restored under
`restoreReference` of the whole array, each element deserialized
through a generic-argument child context and added to a fresh set;
anything else is a shape mismatch, logged when error logging is
enabled and resolved to `undefined`. -/
def SetSerializer.deserialize (x : Jv) (serializerContext : SerializerContext)
    (st : SerializerState) : Except String (Jv × SerializerState) :=
  match x with
  | .undefined => .ok (serializerContext.deserializedDefaultValue, st)
  | .null => .ok (serializerContext.deserializedNullValue, st)
  | .arr l =>
      serializerContext.restoreReference st (.arr l) (fun st0 =>
        match serializerContext.defineGenericSerializerContext 0 with
        | .error e => .error e
        | .ok genericSerializerContext =>
            match SetSerializer.deserializeElements genericSerializerContext l 0 [] st0 with
            | .error e => .error e
            | .ok (set, st1) => .ok (Jv.set set, st1))
  | _ =>
      .ok (Jv.undefined,
        logErrorWhenEnabled serializerContext
          (serializerContext.jsonPath ++ ": cannot deserialize value as set.") st)

/-- The indexed `for` loop of `SetSerializer.deserialize`: each array
slot is deserialized through a child context and added to the set
being built. -/
def SetSerializer.deserializeElements (genericSerializerContext : SerializerContext) :
    List Jv → Nat → List Jv → SerializerState → Except String (List Jv × SerializerState)
  | [], _, set, st => .ok (set, st)
  | v :: rest, i, set, st =>
      let valueSerializerContext := genericSerializerContext.defineChildSerializerContext
        { jsonPathKey := .num i,
          typeMetadata := genericSerializerContext.typeMetadata,
          propertyMetadata := none,
          genericArguments := none,
          referenceValueSetterPresent := true }
      match valueSerializerContext.deserialize v st with
      | .error e => .error e
      | .ok (y, st1) =>
          SetSerializer.deserializeElements genericSerializerContext rest (i + 1)
            (jsSetAdd set y) st1

end

/-! ### Concrete registrations used to exercise the definitions -/

/-- A registered element type. -/
def elementTypeFn : TypeFn :=
  ⟨1, "Element"⟩

/-- Metadata of the element type: a leaf serializer with identity
conversions and neutral policies. -/
def elementTypeMetadata : TypeMetadata :=
  { serializedDefaultValue := Jv.undefined
    deserializedDefaultValue := Jv.undefined
    preserveNull := false
    useDefaultValue := false
    genericArguments := none
    serializer := .leafS id id
    discriminator := "type"
    discriminantMap := []
    log := ⟨false⟩ }

/-- Metadata of `Set<Element>`: the set serializer with the element
type as generic argument 0. -/
def setOfElementTypeMetadata : TypeMetadata :=
  { elementTypeMetadata with
      serializer := .setS
      genericArguments := some [.typeFn elementTypeFn] }

/-- The registry resolver for the two test registrations. -/
def testTypeMetadataResolver : TypeFn → TypeMetadata := fun t =>
  if t = elementTypeFn then elementTypeMetadata else setOfElementTypeMetadata

/-- A root context for a `Set<Element>` operation. -/
def setTestContext : SerializerContext :=
  .mk Jv.undefined
    { jsonPathKey := .str "$"
      typeMetadata := setOfElementTypeMetadata
      propertyMetadata := none
      genericArguments := none
      referenceValueSetterPresent := false }
    testTypeMetadataResolver none

/-- A root context for the element type alone (it has no generic
arguments). -/
def elementTestContext : SerializerContext :=
  .mk Jv.undefined
    { jsonPathKey := .str "$"
      typeMetadata := elementTypeMetadata
      propertyMetadata := none
      genericArguments := none
      referenceValueSetterPresent := false }
    testTypeMetadataResolver none

/-- Polymorphic member `A` of a test hierarchy. -/
def typeFnA : TypeFn :=
  ⟨10, "A"⟩

/-- Polymorphic member `B` of a test hierarchy. -/
def typeFnB : TypeFn :=
  ⟨11, "B"⟩

/-- Member metadata under the polymorphic test root: discriminator
field `tag`. -/
def memberTypeMetadata : TypeMetadata :=
  { elementTypeMetadata with discriminator := "tag" }

/-- The polymorphic root's metadata: members `A` (discriminant `A`)
and `B` (discriminant `B`). -/
def polyRootTypeMetadata : TypeMetadata :=
  { elementTypeMetadata with
      discriminator := "tag"
      discriminantMap := [(typeFnA, "A"), (typeFnB, "B")] }

/-- The registry resolver of the polymorphic test hierarchy. -/
def polyTypeMetadataResolver : TypeFn → TypeMetadata := fun _ =>
  memberTypeMetadata

/-- A context typed at the polymorphic test root. -/
def polyTestContext : SerializerContext :=
  .mk Jv.undefined
    { jsonPathKey := .str "$"
      typeMetadata := polyRootTypeMetadata
      propertyMetadata := none
      genericArguments := none
      referenceValueSetterPresent := false }
    polyTypeMetadataResolver none

end EB

namespace EB

/-! ## Supporting lemmas -/

/-- Reading back a just-written key. -/
theorem mapGet_mapSet_self (m : RefMap) (k : Nat) (v : RVal) :
    mapGet (mapSet m k v) k = v := by
  simp [mapGet, mapSet, List.lookup]

/-- Running reference callbacks never changes the reference map. -/
theorem resolveReferenceCallbacks_referenceMap (s : HState σ) (k : Nat) :
    (resolveReferenceCallbacks s k).referenceMap = s.referenceMap := by
  unfold resolveReferenceCallbacks
  cases s.referenceCallbackMap.lookup k <;> rfl

/-- Running reference callbacks folds them, in queue order, over the
external environment, reading the current reference map. -/
theorem resolveReferenceCallbacks_env (s : HState σ) (k : Nat) :
    (resolveReferenceCallbacks s k).env =
      ((s.referenceCallbackMap.lookup k).getD []).foldl
        (fun e cb => cb s.referenceMap e) s.env := by
  unfold resolveReferenceCallbacks
  cases s.referenceCallbackMap.lookup k <;> rfl

/-- The discriminant scan returns the first map member whose
discriminator field in the input equals its discriminant, and a
configuration error when none does. -/
theorem definePolymorphicScan_eq_find (ctx : SerializerContext) (x : TypeFnOrRecord) :
    ∀ l : List (TypeFn × String),
      ctx.definePolymorphicScan x l =
        match l.find? (fun td =>
            strictEqStr (recordGet x (ctx.typeMetadataResolver td.1).discriminator) td.2) with
        | some td =>
            .ok (.mk ctx.root
              { ctx.serializerContextOptions with typeMetadata := ctx.typeMetadataResolver td.1 }
              ctx.typeMetadataResolver ctx.parentSerializerContext)
        | none =>
            .error (ctx.jsonPath ++
              ": cannot define discriminant of polymorphic type. This is usually caused by invalid configuration.") := by
  intro l
  induction l with
  | nil => rfl
  | cons td rest ih =>
      obtain ⟨t, d⟩ := td
      rw [SerializerContext.definePolymorphicScan, List.find?]
      by_cases h : strictEqStr (recordGet x ((ctx.typeMetadataResolver t)).discriminator) d
      · simp [SerializerContext.defineTypeMetadata, h]
      · simp only [SerializerContext.defineTypeMetadata] at *
        simp [h, ih]

end EB

namespace EB

/-! ## Claim theorems -/

/-- Claim C5: the reference handler's `define` (used during
serialization) and `restore` (used during deserialization) follow the
same algorithm — they are the same function of the state, key and value
initializer, both in the generic handler model and in the
serializer-valued transcription, so they compute the same result and
perform the same updates to the shared reference map and callback
queue. -/
theorem define_restore_same_algorithm :
    @DirectReferenceHandler.define = @DirectReferenceHandler.restore ∧
    @SerializerContext.defineReference = @SerializerContext.restoreReference :=
  ⟨rfl, rfl⟩

/-- Claim C1, counterexample: with a context whose shared reference map
has an entry for key `5` holding the nil value `null` (stored entry
`none`), the claim's final case ("otherwise it returns the stored entry
directly") requires the stored `null` back without invoking the
initializer; instead `define` treats the nil entry like a missing one:
it invokes the initializer (the environment counter becomes 1) and
returns the initializer's value `some 7`. -/
theorem defineReference_nilEntry_counterexample :
    (((⟨[(5, none)], [], 0⟩ : HState Nat)).referenceMap.lookup 5 = some none) ∧
    DirectReferenceHandler.define (⟨[(5, none)], [], 0⟩ : HState Nat) 5 (countingInit (some 7))
      = (DefineResult.value (some 7), ⟨[(5, some 7), (5, some 5), (5, none)], [], 1⟩) :=
  ⟨rfl, rfl⟩

/-- Claim C1 (amended: a nil (`undefined`/`null`) entry is treated
exactly like a missing one, and the direct-return case requires a
non-nil stored entry): when the shared reference map reads nil for the
key, `define` inserts the placeholder `key → key`, invokes the
initializer exactly once on that state, overwrites the entry with the
initializer's result, runs every callback queued for the key (in queue
order, on the updated map), and returns the result; when the entry
equals the key itself it returns a deferred resolver that reads the
map's current entry when later invoked, without invoking the
initializer; otherwise (a non-nil stored entry differing from the key)
it returns the stored entry directly, untouched state. -/
theorem defineReference_cases_amended (σ : Type) (s : HState σ) (referenceKey : Nat)
    (init : HState σ → RVal × HState σ) :
    (∀ v s2, mapGet s.referenceMap referenceKey = none →
      init (s.withMap (mapSet s.referenceMap referenceKey (some referenceKey))) = (v, s2) →
      DirectReferenceHandler.define s referenceKey init =
        (DefineResult.value v,
         resolveReferenceCallbacks (s2.withMap (mapSet s2.referenceMap referenceKey v))
           referenceKey) ∧
      mapGet (DirectReferenceHandler.define s referenceKey init).2.referenceMap referenceKey
        = v) ∧
    (mapGet s.referenceMap referenceKey = some referenceKey →
      DirectReferenceHandler.define s referenceKey init =
        (DefineResult.resolver referenceKey, s)) ∧
    (∀ v, mapGet s.referenceMap referenceKey = some v → v ≠ referenceKey →
      DirectReferenceHandler.define s referenceKey init = (DefineResult.value (some v), s)) ∧
    (∀ (t : HState σ) (k : Nat),
      (resolveReferenceCallbacks t k).referenceMap = t.referenceMap ∧
      (resolveReferenceCallbacks t k).env =
        ((t.referenceCallbackMap.lookup k).getD []).foldl
          (fun e cb => cb t.referenceMap e) t.env) ∧
    (∀ (m : RefMap) (k : Nat), invokeResolver m k = mapGet m k) := by
  refine ⟨?_, ?_, ?_, ?_, fun m k => rfl⟩
  · intro v s2 hnone hinit
    constructor <;>
      (simp only [DirectReferenceHandler.define, hnone, HState.withMap] at hinit ⊢ ;
       simp only [hinit, resolveReferenceCallbacks_referenceMap, mapGet_mapSet_self])
  · intro hself
    simp [DirectReferenceHandler.define, hself]
  · intro v hv hne
    simp [DirectReferenceHandler.define, hv, hne]
  · intro t k
    exact ⟨resolveReferenceCallbacks_referenceMap t k, resolveReferenceCallbacks_env t k⟩

/-- Witness for the amended C1 theorem: the three cases at concrete
inputs (missing entry; placeholder entry; finished non-nil entry). -/
theorem defineReference_cases_amended_witness :
    DirectReferenceHandler.define (⟨[], [], 0⟩ : HState Nat) 5 (countingInit (some 7))
      = (DefineResult.value (some 7), ⟨[(5, some 7), (5, some 5)], [], 1⟩) ∧
    DirectReferenceHandler.define (⟨[(5, some 5)], [], 0⟩ : HState Nat) 5 (countingInit (some 7))
      = (DefineResult.resolver 5, ⟨[(5, some 5)], [], 0⟩) ∧
    DirectReferenceHandler.define (⟨[(5, some 9)], [], 0⟩ : HState Nat) 5 (countingInit (some 7))
      = (DefineResult.value (some 9), ⟨[(5, some 9)], [], 0⟩) := by
  refine ⟨?_, ?_, ?_⟩
  · exact (((defineReference_cases_amended Nat ⟨[], [], 0⟩ 5 (countingInit (some 7))).1
      (some 7) ⟨[(5, some 5)], [], 1⟩ rfl rfl).1).trans rfl
  · exact (defineReference_cases_amended Nat ⟨[(5, some 5)], [], 0⟩ 5
      (countingInit (some 7))).2.1 rfl
  · exact (defineReference_cases_amended Nat ⟨[(5, some 9)], [], 0⟩ 5
      (countingInit (some 7))).2.2.1 9 rfl (by decide)

end EB

namespace EB

/-- Claim C4, counterexample: a first `define` call on key `5` with an
initializer producing the nil value `null` completes (the result is
`DefineResult.value none` and the result was stored), yet a later call
for the same key invokes its value initializer again — the environment
counter, incremented once per invocation, reaches 2 — because a nil
stored entry is indistinguishable from a missing one under the
handler's `isNil` check.  So reuse does not hold "for every value the
initializer may produce". -/
theorem define_reuse_counterexample :
    (DirectReferenceHandler.define (⟨[], [], 0⟩ : HState Nat) 5 (countingInit none)).1
      = DefineResult.value none ∧
    (DirectReferenceHandler.define
        (DirectReferenceHandler.define (⟨[], [], 0⟩ : HState Nat) 5 (countingInit none)).2
        5 (countingInit none)).2.env = 2 :=
  ⟨rfl, rfl⟩

/-- Claim C4 (amended: the produced value must be non-nil and distinct
from the key): if a first `define` (or `restore`) call for a key found
no usable entry and completed producing `some n` with `n` not the key,
then the result is stored under the key, and any later `define` or
`restore` call in any state still mapping the key to that value returns
the same produced value with the state untouched — in particular its
value initializer is not invoked. -/
theorem define_reuse_amended (σ τ : Type) (s : HState σ) (referenceKey n : Nat)
    (init : HState σ → RVal × HState σ)
    (hstart : mapGet s.referenceMap referenceKey = none)
    (hval : (DirectReferenceHandler.define s referenceKey init).1
      = DefineResult.value (some n))
    (hne : n ≠ referenceKey) :
    mapGet (DirectReferenceHandler.define s referenceKey init).2.referenceMap referenceKey
      = some n ∧
    (∀ (s2 : HState τ) (init2 : HState τ → RVal × HState τ),
      mapGet s2.referenceMap referenceKey = some n →
      DirectReferenceHandler.define s2 referenceKey init2
        = (DefineResult.value (some n), s2) ∧
      DirectReferenceHandler.restore s2 referenceKey init2
        = (DefineResult.value (some n), s2)) := by
  constructor
  · simp only [DirectReferenceHandler.define, hstart, HState.withMap,
      DefineResult.value.injEq] at hval ⊢
    simp only [resolveReferenceCallbacks_referenceMap, mapGet_mapSet_self]
    exact hval
  · intro s2 init2 h2
    constructor <;> simp [DirectReferenceHandler.define, DirectReferenceHandler.restore, h2, hne]

/-- Witness for the amended C4 theorem: a completed first call storing
`some 7` under key `5`, then a later call on a state holding that entry
returning it unchanged. -/
theorem define_reuse_amended_witness :
    mapGet (DirectReferenceHandler.define (⟨[], [], 0⟩ : HState Nat) 5
        (countingInit (some 7))).2.referenceMap 5 = some 7 ∧
    DirectReferenceHandler.define (⟨[(5, some 7)], [], 0⟩ : HState Nat) 5 (countingInit none)
      = (DefineResult.value (some 7), ⟨[(5, some 7)], [], 0⟩) := by
  have h := define_reuse_amended Nat Nat ⟨[], [], 0⟩ 5 7 (countingInit (some 7))
    rfl rfl (by decide)
  exact ⟨h.1, (h.2 ⟨[(5, some 7)], [], 0⟩ (countingInit none) rfl).1⟩

end EB

namespace EB

/-- Claim C6: the set serializer handles its input in order — absent
(`undefined`) input returns the context's (serialized or deserialized)
default value; `null` input returns the context's null value; a shape
mismatch (neither absent, null, nor a set for `serialize`; nor an array
for `deserialize`) appends an error log line exactly when error logging
is enabled and resolves to `undefined` for that subtree, returning
normally (`Except.ok`) rather than raising, so the traversal of sibling
fields can continue. -/
theorem setSerializer_shape_handling (ctx : SerializerContext) (st : SerializerState) :
    (SetSerializer.serialize Jv.undefined ctx st = .ok (ctx.serializedDefaultValue, st)) ∧
    (SetSerializer.serialize Jv.null ctx st = .ok (ctx.serializedNullValue, st)) ∧
    (∀ b, SetSerializer.serialize (Jv.boolean b) ctx st =
      .ok (Jv.undefined, logErrorWhenEnabled ctx (ctx.jsonPath ++ ": cannot serialize value as set.") st)) ∧
    (∀ n, SetSerializer.serialize (Jv.num n) ctx st =
      .ok (Jv.undefined, logErrorWhenEnabled ctx (ctx.jsonPath ++ ": cannot serialize value as set.") st)) ∧
    (∀ s, SetSerializer.serialize (Jv.str s) ctx st =
      .ok (Jv.undefined, logErrorWhenEnabled ctx (ctx.jsonPath ++ ": cannot serialize value as set.") st)) ∧
    (∀ l, SetSerializer.serialize (Jv.arr l) ctx st =
      .ok (Jv.undefined, logErrorWhenEnabled ctx (ctx.jsonPath ++ ": cannot serialize value as set.") st)) ∧
    (∀ k, SetSerializer.serialize (Jv.resolverF k) ctx st =
      .ok (Jv.undefined, logErrorWhenEnabled ctx (ctx.jsonPath ++ ": cannot serialize value as set.") st)) ∧
    (SetSerializer.deserialize Jv.undefined ctx st = .ok (ctx.deserializedDefaultValue, st)) ∧
    (SetSerializer.deserialize Jv.null ctx st = .ok (ctx.deserializedNullValue, st)) ∧
    (∀ b, SetSerializer.deserialize (Jv.boolean b) ctx st =
      .ok (Jv.undefined, logErrorWhenEnabled ctx (ctx.jsonPath ++ ": cannot deserialize value as set.") st)) ∧
    (∀ n, SetSerializer.deserialize (Jv.num n) ctx st =
      .ok (Jv.undefined, logErrorWhenEnabled ctx (ctx.jsonPath ++ ": cannot deserialize value as set.") st)) ∧
    (∀ s, SetSerializer.deserialize (Jv.str s) ctx st =
      .ok (Jv.undefined, logErrorWhenEnabled ctx (ctx.jsonPath ++ ": cannot deserialize value as set.") st)) ∧
    (∀ l, SetSerializer.deserialize (Jv.set l) ctx st =
      .ok (Jv.undefined, logErrorWhenEnabled ctx (ctx.jsonPath ++ ": cannot deserialize value as set.") st)) ∧
    (∀ k, SetSerializer.deserialize (Jv.resolverF k) ctx st =
      .ok (Jv.undefined, logErrorWhenEnabled ctx (ctx.jsonPath ++ ": cannot deserialize value as set.") st)) ∧
    (∀ line, logErrorWhenEnabled ctx line st =
      if ctx.log.errorEnabled then { st with logLines := st.logLines ++ [line] } else st) := by
  refine ⟨?_, ?_, ?_, ?_, ?_, ?_, ?_, ?_, ?_, ?_, ?_, ?_, ?_, ?_, ?_⟩ <;>
    first
      | (intro a; simp [SetSerializer.serialize, SetSerializer.deserialize, logErrorWhenEnabled])
      | simp [SetSerializer.serialize, SetSerializer.deserialize]

/-- Claim C7: resolution of the null and default policy by the set
serializer.  Serializing `null` yields `null` unchanged when
null-preservation is enabled; otherwise, with default-substitution
enabled, it yields the configured default — the property-level default
when one is present (non-nil), else the type-level default — and with
default-substitution disabled the resolved value is `undefined`.
Serializing an absent input resolves the default the same way (so with
default-substitution disabled the resolved default is `undefined` and
the field is omitted).  The deserialized null and default values
resolve symmetrically. -/
theorem setSerializer_null_default_policy (ctx : SerializerContext) (st : SerializerState) :
    (SetSerializer.serialize Jv.null ctx st =
      .ok (if ctx.preserveNull then Jv.null
           else if ctx.useDefaultValue then
             jvNullish
               (match ctx.propertyMetadata with
                | some pm => pm.serializedDefaultValue
                | none => Jv.undefined)
               ctx.typeMetadata.serializedDefaultValue
           else Jv.undefined, st)) ∧
    (SetSerializer.serialize Jv.undefined ctx st =
      .ok (if ctx.useDefaultValue then
             jvNullish
               (match ctx.propertyMetadata with
                | some pm => pm.serializedDefaultValue
                | none => Jv.undefined)
               ctx.typeMetadata.serializedDefaultValue
           else Jv.undefined, st)) ∧
    (SetSerializer.deserialize Jv.null ctx st =
      .ok (if ctx.preserveNull then Jv.null
           else if ctx.useDefaultValue then
             jvNullish
               (match ctx.propertyMetadata with
                | some pm => pm.deserializedDefaultValue
                | none => Jv.undefined)
               ctx.typeMetadata.deserializedDefaultValue
           else Jv.undefined, st)) ∧
    (SetSerializer.deserialize Jv.undefined ctx st =
      .ok (if ctx.useDefaultValue then
             jvNullish
               (match ctx.propertyMetadata with
                | some pm => pm.deserializedDefaultValue
                | none => Jv.undefined)
               ctx.typeMetadata.deserializedDefaultValue
           else Jv.undefined, st)) := by
  refine ⟨?_, ?_, ?_, ?_⟩ <;>
    simp [SetSerializer.serialize, SetSerializer.deserialize,
      SerializerContext.serializedNullValue, SerializerContext.serializedDefaultValue,
      SerializerContext.deserializedNullValue, SerializerContext.deserializedDefaultValue]

end EB

namespace EB

/-- Claim C8: `defineGenericSerializerContext(genericIndex)` raises a
configuration error exactly when the context's effective generic
arguments are absent or the index is out of their range; otherwise it
returns a context whose type metadata is the resolved metadata of
generic argument `genericIndex`, whose option-level generic arguments
are that argument's nested generic arguments (present exactly when the
argument is a (type, arguments) pair), with property metadata cleared
and the parent preserved. -/
theorem defineGenericSerializerContext_spec (ctx : SerializerContext) (genericIndex : Nat) :
    (ctx.genericArguments = none →
      ctx.defineGenericSerializerContext genericIndex =
        .error (ctx.jsonPath ++
          ": cannot define generic arguments. This is usually caused by invalid configuration.")) ∧
    (∀ gas, ctx.genericArguments = some gas → gas.length ≤ genericIndex →
      ctx.defineGenericSerializerContext genericIndex =
        .error (ctx.jsonPath ++ ": cannot define generic argument for index " ++
          toString genericIndex ++ ". This is usually caused by invalid configuration.")) ∧
    (∀ gas ga, ctx.genericArguments = some gas → gas.get? genericIndex = some ga →
      ctx.defineGenericSerializerContext genericIndex =
        .ok (.mk ctx.root
          { ctx.serializerContextOptions with
              typeMetadata := ctx.typeMetadataResolver ga.typeArgumentOf,
              genericArguments := ga.nestedArgumentsOf,
              propertyMetadata := none }
          ctx.typeMetadataResolver ctx.parentSerializerContext)) := by
  refine ⟨?_, ?_, ?_⟩
  · intro h
    simp [SerializerContext.defineGenericSerializerContext, h]
  · intro gas hgas hlen
    have hnone : gas[genericIndex]? = none := by
      rw [← List.get?_eq_getElem?]
      exact List.get?_eq_none.mpr hlen
    simp [SerializerContext.defineGenericSerializerContext, hgas, hnone]
  · intro gas ga hgas hget
    have hget2 : gas[genericIndex]? = some ga := by
      rw [← List.get?_eq_getElem?]
      exact hget
    simp [SerializerContext.defineGenericSerializerContext, hgas, hget2,
      SerializerContext.defineTypeMetadata]

/-- Witness for C8: at the `Set<Element>` test context, index 0
resolves to the element metadata with no nested generic arguments;
index 1 is out of range and errors; at the element test context the
effective generic arguments are absent and index 0 errors. -/
theorem defineGenericSerializerContext_spec_witness :
    setTestContext.defineGenericSerializerContext 0 =
      .ok (.mk Jv.undefined
        { jsonPathKey := .str "$"
          typeMetadata := elementTypeMetadata
          propertyMetadata := none
          genericArguments := none
          referenceValueSetterPresent := false }
        testTypeMetadataResolver none) ∧
    setTestContext.defineGenericSerializerContext 1 =
      .error ("$: cannot define generic argument for index 1. This is usually caused by invalid configuration.") ∧
    elementTestContext.defineGenericSerializerContext 0 =
      .error ("$: cannot define generic arguments. This is usually caused by invalid configuration.") := by
  refine ⟨?_, ?_, ?_⟩
  · exact ((defineGenericSerializerContext_spec setTestContext 0).2.2
      [.typeFn elementTypeFn] (.typeFn elementTypeFn) rfl rfl).trans (by
        simp [setTestContext, GenericArgument.typeArgumentOf, GenericArgument.nestedArgumentsOf,
          SerializerContext.root, SerializerContext.serializerContextOptions,
          SerializerContext.typeMetadataResolver, SerializerContext.parentSerializerContext,
          testTypeMetadataResolver])
  · exact ((defineGenericSerializerContext_spec setTestContext 1).2.1
      [.typeFn elementTypeFn] rfl (by decide)).trans rfl
  · exact ((defineGenericSerializerContext_spec elementTestContext 0).1 rfl).trans rfl

/-- Claim C9: `definePolymorphicSerializerContext` decides between its
two resolution modes solely by `isCtorFunction`, which holds exactly
for a function value with a non-empty `name`; such a value is resolved
by direct discriminant-map lookup (`ByTypeFn`), while every other value
— including an anonymous function — is resolved by the discriminator
scan (`ByDiscriminant`). -/
theorem isCtorFunction_dispatch (ctx : SerializerContext) (x : TypeFnOrRecord) :
    (∀ f, isCtorFunction (.fn f) = (f.name != "")) ∧
    (∀ r, isCtorFunction (.record r) = false) ∧
    (isCtorFunction x = true →
      ∃ f, x = .fn f ∧ f.name ≠ "" ∧
        ctx.definePolymorphicSerializerContext x =
          ctx.definePolymorphicSerializerContextByTypeFn f) ∧
    (isCtorFunction x = false →
      ctx.definePolymorphicSerializerContext x =
        ctx.definePolymorphicSerializerContextByDiscriminant x) := by
  refine ⟨fun f => rfl, fun r => rfl, ?_, ?_⟩
  · intro h
    cases x with
    | fn f =>
        refine ⟨f, rfl, ?_, ?_⟩
        · simpa [isCtorFunction, bne_iff_ne] using h
        · simp [SerializerContext.definePolymorphicSerializerContext, h]
    | record r => simp [isCtorFunction] at h
  · intro h
    cases x with
    | fn f => simp [SerializerContext.definePolymorphicSerializerContext, h]
    | record r => simp [SerializerContext.definePolymorphicSerializerContext, h]

/-- Witness for C9: the named function `A` dispatches to the
direct-lookup mode; an anonymous function (empty `name`) and a raw
record dispatch to the scan mode. -/
theorem isCtorFunction_dispatch_witness :
    (∃ f, (TypeFnOrRecord.fn typeFnA) = .fn f ∧ f.name ≠ "" ∧
      polyTestContext.definePolymorphicSerializerContext (.fn typeFnA) =
        polyTestContext.definePolymorphicSerializerContextByTypeFn f) ∧
    polyTestContext.definePolymorphicSerializerContext (.fn ⟨3, ""⟩) =
      polyTestContext.definePolymorphicSerializerContextByDiscriminant (.fn ⟨3, ""⟩) ∧
    polyTestContext.definePolymorphicSerializerContext (.record [("tag", .str "A")]) =
      polyTestContext.definePolymorphicSerializerContextByDiscriminant
        (.record [("tag", .str "A")]) := by
  refine ⟨?_, ?_, ?_⟩
  · exact (isCtorFunction_dispatch polyTestContext (.fn typeFnA)).2.2.1 rfl
  · exact (isCtorFunction_dispatch polyTestContext (.fn ⟨3, ""⟩)).2.2.2 rfl
  · exact (isCtorFunction_dispatch polyTestContext (.record [("tag", .str "A")])).2.2.2 rfl

/-- Claim C3: polymorphic context resolution.  For a concrete type
reference (a named function, the serialization direction) the
discriminant is looked up directly in the discriminant map: a missing
entry raises a configuration error (synchronously, as an exception
value), and a present entry re-types the context with the member's
resolved metadata.  For a raw record (the deserialization direction)
the discriminant map is scanned in order and the first member type
whose configured discriminator field in the record equals that
member's discriminant is selected; when no member matches, a
configuration error is raised. -/
theorem definePolymorphicSerializerContext_resolution
    (ctx : SerializerContext) (f : TypeFn) (r : List (String × RecordValue)) :
    (f.name ≠ "" →
      (ctx.discriminantMap.lookup f = none →
        ctx.definePolymorphicSerializerContext (.fn f) =
          .error (ctx.jsonPath ++
            ": cannot define discriminant of polymorphic type. This is usually caused by invalid configuration.")) ∧
      (∀ d, ctx.discriminantMap.lookup f = some d →
        ctx.definePolymorphicSerializerContext (.fn f) =
          .ok (.mk ctx.root
            { ctx.serializerContextOptions with typeMetadata := ctx.typeMetadataResolver f }
            ctx.typeMetadataResolver ctx.parentSerializerContext))) ∧
    (ctx.definePolymorphicSerializerContext (.record r) =
      match ctx.discriminantMap.find? (fun td =>
          strictEqStr (recordGet (.record r) (ctx.typeMetadataResolver td.1).discriminator) td.2) with
      | some td =>
          .ok (.mk ctx.root
            { ctx.serializerContextOptions with typeMetadata := ctx.typeMetadataResolver td.1 }
            ctx.typeMetadataResolver ctx.parentSerializerContext)
      | none =>
          .error (ctx.jsonPath ++
            ": cannot define discriminant of polymorphic type. This is usually caused by invalid configuration.")) := by
  constructor
  · intro hname
    have hctor : isCtorFunction (.fn f) = true := by
      simp [isCtorFunction, bne_iff_ne, hname]
    constructor
    · intro hmiss
      simp [SerializerContext.definePolymorphicSerializerContext, hctor,
        SerializerContext.definePolymorphicSerializerContextByTypeFn, hmiss]
    · intro d hd
      simp [SerializerContext.definePolymorphicSerializerContext, hctor,
        SerializerContext.definePolymorphicSerializerContextByTypeFn, hd,
        SerializerContext.defineTypeMetadata]
  · have : isCtorFunction (.record r) = false := rfl
    simp only [SerializerContext.definePolymorphicSerializerContext, this, Bool.false_eq_true,
      if_false, SerializerContext.definePolymorphicSerializerContextByDiscriminant]
    exact definePolymorphicScan_eq_find ctx (.record r) ctx.discriminantMap

/-- Witness for C3: under the test root with members `A` and `B`,
resolving the named member `A` directly succeeds; a type function
missing from the map errors; the record with tag `A` selects member
`A`; the record with the unknown tag `C` errors. -/
theorem definePolymorphicSerializerContext_resolution_witness :
    polyTestContext.definePolymorphicSerializerContext (.fn typeFnA) =
      .ok (.mk Jv.undefined
        { jsonPathKey := .str "$"
          typeMetadata := memberTypeMetadata
          propertyMetadata := none
          genericArguments := none
          referenceValueSetterPresent := false }
        polyTypeMetadataResolver none) ∧
    polyTestContext.definePolymorphicSerializerContext (.fn ⟨12, "C"⟩) =
      .error ("$: cannot define discriminant of polymorphic type. This is usually caused by invalid configuration.") ∧
    polyTestContext.definePolymorphicSerializerContext (.record [("tag", .str "A")]) =
      .ok (.mk Jv.undefined
        { jsonPathKey := .str "$"
          typeMetadata := memberTypeMetadata
          propertyMetadata := none
          genericArguments := none
          referenceValueSetterPresent := false }
        polyTypeMetadataResolver none) ∧
    polyTestContext.definePolymorphicSerializerContext (.record [("tag", .str "C")]) =
      .error ("$: cannot define discriminant of polymorphic type. This is usually caused by invalid configuration.") := by
  refine ⟨?_, ?_, ?_, ?_⟩
  · exact (((definePolymorphicSerializerContext_resolution polyTestContext typeFnA []).1
      (by decide)).2 "A" (by decide)).trans rfl
  · exact (((definePolymorphicSerializerContext_resolution polyTestContext ⟨12, "C"⟩ []).1
      (by decide)).1 (by decide)).trans rfl
  · exact ((definePolymorphicSerializerContext_resolution polyTestContext typeFnA
      [("tag", .str "A")]).2).trans rfl
  · exact ((definePolymorphicSerializerContext_resolution polyTestContext typeFnA
      [("tag", .str "C")]).2).trans rfl

end EB

namespace EB

/-- Serializing elements through a generic context whose type metadata
carries a leaf serializer maps the conversion over the list and leaves
the state untouched. -/
theorem serializeElements_leaf (gctx : SerializerContext) (ser deser : Jv → Jv)
    (hser : gctx.typeMetadata.serializer = .leafS ser deser) :
    ∀ (l : List Jv) (i : Nat) (st : SerializerState),
      SetSerializer.serializeElements gctx l i st = .ok (l.map ser, st) := by
  intro l
  induction l with
  | nil => intro i st; simp [SetSerializer.serializeElements]
  | cons v rest ih =>
      intro i st
      rw [SetSerializer.serializeElements]
      have hchild : (gctx.defineChildSerializerContext
          { jsonPathKey := .num i, typeMetadata := gctx.typeMetadata,
            propertyMetadata := none, genericArguments := none,
            referenceValueSetterPresent := true }).serializer = .leafS ser deser := by
        simpa [SerializerContext.defineChildSerializerContext, SerializerContext.serializer,
          SerializerContext.propertyMetadata, SerializerContext.serializerContextOptions,
          SerializerContext.typeMetadata] using hser
      rw [SerializerContext.serialize, hchild]
      simp [ih]

/-- Deserializing elements through a generic context whose type
metadata carries a leaf serializer folds `Set.add` of the converted
elements over the accumulator and leaves the state untouched. -/
theorem deserializeElements_leaf (gctx : SerializerContext) (ser deser : Jv → Jv)
    (hser : gctx.typeMetadata.serializer = .leafS ser deser) :
    ∀ (l : List Jv) (i : Nat) (acc : List Jv) (st : SerializerState),
      SetSerializer.deserializeElements gctx l i acc st =
        .ok (List.foldl jsSetAdd acc (l.map deser), st) := by
  intro l
  induction l with
  | nil => intro i acc st; simp [SetSerializer.deserializeElements]
  | cons v rest ih =>
      intro i acc st
      rw [SetSerializer.deserializeElements]
      have hchild : (gctx.defineChildSerializerContext
          { jsonPathKey := .num i, typeMetadata := gctx.typeMetadata,
            propertyMetadata := none, genericArguments := none,
            referenceValueSetterPresent := true }).serializer = .leafS ser deser := by
        simpa [SerializerContext.defineChildSerializerContext, SerializerContext.serializer,
          SerializerContext.propertyMetadata, SerializerContext.serializerContextOptions,
          SerializerContext.typeMetadata] using hser
      rw [SerializerContext.deserialize, hchild]
      simp [ih]

/-- Folding `Set.add` over pairwise-distinct elements disjoint from the
accumulator appends them in order. -/
theorem foldl_jsSetAdd_of_nodup :
    ∀ (l acc : List Jv), l.Nodup → (∀ x ∈ l, x ∉ acc) →
      List.foldl jsSetAdd acc l = acc ++ l := by
  intro l
  induction l with
  | nil => intro acc _ _; simp
  | cons v rest ih =>
      intro acc hnd hdis
      rw [List.foldl_cons, jsSetAdd, if_neg (hdis v (by simp))]
      rw [ih (acc ++ [v]) (List.nodup_cons.mp hnd).2]
      · simp
      · intro x hx
        simp only [List.mem_append, List.mem_singleton]
        rintro (h | rfl)
        · exact hdis x (by simp [hx]) h
        · exact (List.nodup_cons.mp hnd).1 hx

/-- Claim C2: round trip through the set serializer.  For a context
typed at a set whose registered element type's serializer round-trips
the set's elements (the leaf element serializers are external
collaborators, assumed correct at their interface boundary), and for
any JS set (pairwise-distinct elements, iteration order), a fresh
serialization produces exactly the sequence of serialized elements,
and a fresh deserialization of that sequence rebuilds a set equal to
the original — elementwise equal, in order, with sharing recorded in
the operation's reference map. -/
theorem setSerializer_roundTrip
    (ctx : SerializerContext) (ser deser : Jv → Jv)
    (gas : List GenericArgument) (ga : GenericArgument) (s : List Jv)
    (hset : ctx.serializer = .setS)
    (hga : ctx.genericArguments = some gas)
    (hga0 : gas.get? 0 = some ga)
    (hleaf : (ctx.typeMetadataResolver ga.typeArgumentOf).serializer = .leafS ser deser)
    (hnd : s.Nodup)
    (hrt : ∀ v ∈ s, deser (ser v) = v) :
    SerializerContext.serialize ctx (Jv.set s) freshSerializerState =
      .ok (Jv.arr (s.map ser),
        { referenceMap := [(Jv.set s, Jv.arr (s.map ser)), (Jv.set s, Jv.set s)]
          referenceCallbackMap := []
          logLines := []
          callbacksRun := [] }) ∧
    SerializerContext.deserialize ctx (Jv.arr (s.map ser)) freshSerializerState =
      .ok (Jv.set s,
        { referenceMap := [(Jv.arr (s.map ser), Jv.set s), (Jv.arr (s.map ser), Jv.arr (s.map ser))]
          referenceCallbackMap := []
          logLines := []
          callbacksRun := [] }) := by
  have hga0' : gas[0]? = some ga := by
    rw [← List.get?_eq_getElem?]; exact hga0
  have hgen : ctx.defineGenericSerializerContext 0 =
      .ok (SerializerContext.mk ctx.root
        { ctx.serializerContextOptions with
            typeMetadata := ctx.typeMetadataResolver ga.typeArgumentOf,
            genericArguments := ga.nestedArgumentsOf,
            propertyMetadata := none }
        ctx.typeMetadataResolver ctx.parentSerializerContext) := by
    simp [SerializerContext.defineGenericSerializerContext, hga, hga0',
      SerializerContext.defineTypeMetadata]
  have hserArg : (SerializerContext.mk ctx.root
      { ctx.serializerContextOptions with
          typeMetadata := ctx.typeMetadataResolver ga.typeArgumentOf,
          genericArguments := ga.nestedArgumentsOf,
          propertyMetadata := none }
      ctx.typeMetadataResolver ctx.parentSerializerContext).typeMetadata.serializer
        = .leafS ser deser := by
    simpa [SerializerContext.typeMetadata, SerializerContext.serializerContextOptions] using hleaf
  have hfold : List.foldl jsSetAdd [] (List.map deser (List.map ser s)) = s := by
    rw [List.map_map]
    have hmap : List.map (deser ∘ ser) s = s := by
      have := List.map_congr_left (f := deser ∘ ser) (g := id) (l := s) (fun a ha => hrt a ha)
      simpa using this
    rw [hmap]
    simpa using foldl_jsSetAdd_of_nodup s [] hnd (by simp)
  constructor
  · rw [SerializerContext.serialize, hset]
    rw [SetSerializer.serialize]
    simp only [SerializerContext.defineReference, SerializerState.referenceMapGet,
      freshSerializerState, List.lookup, Jv.isNil, if_true]
    simp only [hgen]
    rw [serializeElements_leaf _ ser deser hserArg s 0]
    simp [resolveReferenceCallbacksJv, List.lookup]
  · rw [SerializerContext.deserialize, hset]
    rw [SetSerializer.deserialize]
    simp only [SerializerContext.restoreReference, SerializerState.referenceMapGet,
      freshSerializerState, List.lookup, Jv.isNil, if_true]
    simp only [hgen]
    rw [deserializeElements_leaf _ ser deser hserArg (s.map ser) 0 []]
    rw [hfold]
    simp [resolveReferenceCallbacksJv, List.lookup]

/-- Witness for C2: the set of two numbers round-trips through the
`Set<Element>` test context. -/
theorem setSerializer_roundTrip_witness :
    SerializerContext.serialize setTestContext (Jv.set [Jv.num 1, Jv.num 2])
        freshSerializerState
      = .ok (Jv.arr [Jv.num 1, Jv.num 2],
        { referenceMap := [(Jv.set [Jv.num 1, Jv.num 2], Jv.arr [Jv.num 1, Jv.num 2]),
            (Jv.set [Jv.num 1, Jv.num 2], Jv.set [Jv.num 1, Jv.num 2])]
          referenceCallbackMap := []
          logLines := []
          callbacksRun := [] }) ∧
    SerializerContext.deserialize setTestContext (Jv.arr [Jv.num 1, Jv.num 2])
        freshSerializerState
      = .ok (Jv.set [Jv.num 1, Jv.num 2],
        { referenceMap := [(Jv.arr [Jv.num 1, Jv.num 2], Jv.set [Jv.num 1, Jv.num 2]),
            (Jv.arr [Jv.num 1, Jv.num 2], Jv.arr [Jv.num 1, Jv.num 2])]
          referenceCallbackMap := []
          logLines := []
          callbacksRun := [] }) := by
  have h := setSerializer_roundTrip setTestContext id id [.typeFn elementTypeFn]
    (.typeFn elementTypeFn) [Jv.num 1, Jv.num 2] rfl rfl rfl rfl
    (by simp) (fun v _ => rfl)
  simpa using h

end EB
